import Mathlib

/-!
Shallow embedding of the mayastor core runtime, covering
src/io-engine/src/bdev/nexus/nexus_channel.rs and
src/io-engine/src/core/reactor.rs, together with theorems checking the
natural-language specification against it.

Conventions of the embedding:
* Children of a nexus are modelled as a list of `Child` records; the child
  API (`state()`, `get_io_handle()`, `get_device()`, `set_state`,
  `compare_exchange`, `rebuilding()`) lives outside the given sources and is
  modelled from the spec (see the doc comments on `Child`).
* A block-device I/O handle is modelled by the `device_name` of the device it
  was acquired from, which is the only attribute of a handle the channel code
  ever inspects.
* Iterator chains (`filter`/`for_each`/`any`/`retain`) become structural
  recursions or `List` operations with the same per-element visit order and
  the same short-circuit behaviour.
* Machine integers (`usize`, `u32`, `u64`) are modelled as `Nat`; where u64
  wrap-around matters (the health monitor arithmetic) the reduction modulo
  2^64 is explicit.
-/

namespace Mayastor

/-- Reason for a child fault; the channel code uses `CantOpen` (failed I/O
handle acquisition) and `IoError` (submission failure). -/
inductive Reason where
  | CantOpen
  | IoError
deriving DecidableEq

/-- Child device state, per the spec data model: one of
Init, Open, Faulted(reason), Closed, Rebuilding. -/
inductive ChildState where
  | Init
  | Open
  | Closed
  | Rebuilding
  | Faulted (r : Reason)
deriving DecidableEq

/-- Modelled from the spec: one backing child block device of a nexus.
The child API used by nexus_channel.rs is not part of the given sources, so
its essential attributes are taken from the spec data model: `state` (with
atomic compare-and-swap), a `device_name` unique within a nexus, handle
acquisition (`get_io_handle`), and a possibly already-dropped device
reference (`get_device`). `canOpen` says whether `get_io_handle` succeeds
for this child (acquisition is deterministic in the child); `hasDevice`
says whether `get_device` still returns a device reference. -/
structure Child where
  name : String
  state : ChildState
  canOpen : Bool
  hasDevice : Bool
deriving DecidableEq

/-- Modelled from the spec: `c.get_io_handle()` returns a handle to the
child's block device on success; the handle is represented by the device
name it refers to. -/
def Child.get_io_handle (c : Child) : Option String :=
  if c.canOpen then some c.name else none

/-- Modelled from the spec: `c.rebuilding()` holds exactly for children in
state `Rebuilding` (the spec: "traverse children in state Rebuilding"). -/
def Child.rebuilding (c : Child) : Bool :=
  c.state = ChildState.Rebuilding

/-- The per-core nexus channel state: `writers` and `readers` handle
vectors, the round-robin cursor `previous` and the `fail_fast` counter
(struct NexusChannelInner of nexus_channel.rs). The back pointer to the
nexus is passed explicitly to the operations. -/
structure NexusChannelInner where
  writers : List String
  readers : List String
  previous : Nat
  fail_fast : Nat
deriving DecidableEq

/-- fault_nexus_child of nexus_channel.rs: walk the children, keep those in
state Open whose (still present) device reports the given name, and
compare-and-swap the first such child Open to Faulted(IoError); the `any`
combinator stops at the first successful swap. Returns the updated children
and whether some swap succeeded. -/
def fault_nexus_child : List Child → String → List Child × Bool
  | [], _ => ([], false)
  | c :: cs, device_name =>
    if c.state = ChildState.Open ∧ c.hasDevice ∧ c.name = device_name then
      ({ c with state := ChildState.Faulted Reason.IoError } :: cs, true)
    else
      let r := fault_nexus_child cs device_name
      (c :: r.1, r.2)

namespace NexusChannelInner

/-- child_select of nexus_channel.rs: round-robin read selection. Returns
none when `readers` is empty; otherwise advances `previous` (increment, or
wrap to 0 when at the end) and returns the new cursor. -/
def child_select (ch : NexusChannelInner) : Option Nat × NexusChannelInner :=
  if ch.readers.isEmpty then (none, ch)
  else
    let p := if ch.previous < ch.readers.length - 1 then ch.previous + 1 else 0
    (some p, { ch with previous := p })

/-- fault_device of nexus_channel.rs: delegates to fault_nexus_child on the
nexus reached through the back pointer; the channel fields are untouched. -/
def fault_device (ch : NexusChannelInner) (nexus : List Child)
    (device_name : String) : NexusChannelInner × List Child × Bool :=
  let r := fault_nexus_child nexus device_name
  (ch, r.1, r.2)

/-- remove_device of nexus_channel.rs: reset `previous` to 0, retain in both
vectors only handles whose device name differs from the given name, then
fault the device; returns the updated channel, updated children and the
fault result. -/
def remove_device (ch : NexusChannelInner) (nexus : List Child)
    (device_name : String) : NexusChannelInner × List Child × Bool :=
  let ch1 : NexusChannelInner :=
    { ch with
      previous := 0
      readers := ch.readers.filter (fun n => n ≠ device_name)
      writers := ch.writers.filter (fun n => n ≠ device_name) }
  ch1.fault_device nexus device_name

end NexusChannelInner

/-- The open pass shared by refresh and NexusChannel::new: for each child in
state Open, acquire a writer and a reader handle; on success push both, on
failure set the child Faulted(CantOpen). Returns the updated children, the
pushed writers and the pushed readers, in children-iteration order. -/
def refreshOpen : List Child → List Child × List String × List String
  | [] => ([], [], [])
  | c :: cs =>
    let r := refreshOpen cs
    if c.state = ChildState.Open then
      if c.canOpen then
        (c :: r.1, c.name :: r.2.1, c.name :: r.2.2)
      else
        ({ c with state := ChildState.Faulted Reason.CantOpen } :: r.1,
          r.2.1, r.2.2)
    else
      (c :: r.1, r.2.1, r.2.2)

/-- The write-only pass of refresh: for each rebuilding child, acquire one
writer handle; on success push it, on failure set the child
Faulted(CantOpen). Returns the updated children and the pushed writers. -/
def refreshRebuild : List Child → List Child × List String
  | [] => ([], [])
  | c :: cs =>
    let r := refreshRebuild cs
    if c.rebuilding then
      if c.canOpen then
        (c :: r.1, c.name :: r.2)
      else
        ({ c with state := ChildState.Faulted Reason.CantOpen } :: r.1, r.2)
    else
      (c :: r.1, r.2)

namespace NexusChannelInner

/-- refresh of nexus_channel.rs: reset `previous` to 0, rebuild fresh
writers and readers from the children in state Open, then, if the readers
vector held before the call was non-empty, append a writer-only handle per
rebuilding child; finally replace the old vectors by the new ones. -/
def refresh (ch : NexusChannelInner) (nexus : List Child) :
    NexusChannelInner × List Child :=
  let op := refreshOpen nexus
  let rb :=
    if ch.readers.isEmpty then (op.1, ([] : List String))
    else refreshRebuild op.1
  ({ ch with
      previous := 0
      writers := op.2.1 ++ rb.2
      readers := op.2.2 },
    rb.1)

end NexusChannelInner

namespace NexusChannel

/-- NexusChannel::new of nexus_channel.rs: build the initial vectors from
the children in state Open (no rebuild pass), with `previous = 0` and
`fail_fast = 0`. Returns the channel and the updated children. -/
def new (nexus : List Child) : NexusChannelInner × List Child :=
  let op := refreshOpen nexus
  ({ writers := op.2.1
     readers := op.2.2
     previous := 0
     fail_fast := 0 },
    op.1)

/-- NexusChannel::clear of nexus_channel.rs: clear both handle vectors. -/
def clear (ch : NexusChannelInner) : NexusChannelInner :=
  { ch with writers := [], readers := [] }

end NexusChannel

/-- Runs `child_select` n times, collecting the outputs in call order and
the final channel state. -/
def childSelectRun : NexusChannelInner → Nat → List (Option Nat) × NexusChannelInner
  | ch, 0 => ([], ch)
  | ch, n + 1 =>
    let s := ch.child_select
    let r := childSelectRun s.2 n
    (s.1 :: r.1, r.2)

/-- Concrete channel with three readers used in examples. -/
def abcChannel : NexusChannelInner :=
  { writers := ["a", "b", "c"]
    readers := ["a", "b", "c"]
    previous := 0
    fail_fast := 0 }

/-- Concrete channel with three readers and an out-of-range cursor. -/
def badCursorChannel : NexusChannelInner :=
  { abcChannel with previous := 4 }

/-! Reactor state machine, from src/io-engine/src/core/reactor.rs. -/

/-- ReactorState of reactor.rs. -/
inductive ReactorState where
  | Init
  | Running
  | Shutdown
  | Delayed
deriving DecidableEq

namespace Reactor

/-- set_state of reactor.rs: the match on the requested state covers every
variant and unconditionally stores it; the previous flags value is not
consulted. -/
def set_state (_flags state : ReactorState) : ReactorState :=
  match state with
  | ReactorState.Init
  | ReactorState.Delayed
  | ReactorState.Shutdown
  | ReactorState.Running => state

/-- running of reactor.rs (pub): set the state to Running. -/
def running (flags : ReactorState) : ReactorState :=
  set_state flags ReactorState.Running

/-- developer_delayed of reactor.rs (pub): set the state to Delayed. -/
def developer_delayed (flags : ReactorState) : ReactorState :=
  set_state flags ReactorState.Delayed

/-- shutdown of reactor.rs (pub): set the state to Shutdown. -/
def shutdown (flags : ReactorState) : ReactorState :=
  set_state flags ReactorState.Shutdown

/-- State effect of one poll of the Future impl for the static Reactor
(reactor.rs): Running and Delayed poll and stay put, Shutdown completes
without changing the flags, Init moves to Delayed when the MAYASTOR_DELAY
environment marker is set and to Running otherwise. -/
def futurePoll (delayEnv : Bool) (flags : ReactorState) : ReactorState :=
  match flags with
  | ReactorState.Running => flags
  | ReactorState.Shutdown => flags
  | ReactorState.Delayed => flags
  | ReactorState.Init =>
    if delayEnv then developer_delayed flags else running flags

end Reactor

/-! Reactor fleet launch, from reactor.rs. -/

/-- Core enumeration as used by launch_remote: the primary ("first") core,
the core the calling OS thread runs on, and the list of enabled cores. -/
structure CoresModel where
  first : Nat
  current : Nat
  enabled : List Nat
deriving DecidableEq

/-- CoreError of the core crate, as used by reactor.rs: a configuration
failure carrying an errno value. -/
inductive CoreError where
  | ReactorConfigureFailed (errno : Int)
  | NotSupported (errno : Int)
deriving DecidableEq

/-- Errno value ENOSYS, returned when the requested core is not enabled. -/
def ENOSYS : Int := 38

/-- Result code of spdk_env_thread_launch_pinned for a given core is an
environment parameter: 0 on success, a nonzero errno value on failure. -/
abbrev PinResult := Nat → Int

namespace Reactors

/-- launch_remote of reactor.rs: a no-op Ok when the requested core equals
the calling core; otherwise, when the core is enabled, launch a pinned
thread and surface a nonzero result code as ReactorConfigureFailed with
that errno; when the core is not enabled, ReactorConfigureFailed(ENOSYS). -/
def launch_remote (cores : CoresModel) (pin : PinResult) (core : Nat) :
    Except CoreError Unit :=
  if core = cores.current then Except.ok ()
  else if cores.enabled.any (fun c => c = core) then
    if pin core = 0 then Except.ok ()
    else Except.error (CoreError.ReactorConfigureFailed (pin core))
  else Except.error (CoreError.ReactorConfigureFailed ENOSYS)

end Reactors

/-! Reactor health monitor, from reactor_monitor_loop of reactor.rs. -/

/-- Size of the u64 value space; the monitor's tick arithmetic is u64. -/
def U64 : Nat := 2 ^ 64

/-- Wrapping u64 subtraction on Nat representatives. -/
def sub64 (a b : Nat) : Nat := (a % U64 + (U64 - b % U64)) % U64

/-- REACTOR_HEARTBEAT_TIMEOUT of reactor.rs. -/
def REACTOR_HEARTBEAT_TIMEOUT : Nat := 3

/-- Effective timeout of reactor_monitor_loop: the optional argument,
defaulting to REACTOR_HEARTBEAT_TIMEOUT. -/
def monitorTimeout (freeze_timeout : Option Nat) : Nat :=
  freeze_timeout.getD REACTOR_HEARTBEAT_TIMEOUT

/-- Per-reactor record of the monitor: the frozen flag and the heartbeat
tick counter (ReactorRecord of reactor.rs), plus the number of heartbeat
futures enqueued on the reactor but not yet executed, which stands for the
contents of the reactor's future inbox. -/
structure ReactorRecord where
  frozen : Bool
  tickCounter : Nat
  pending : Nat
deriving DecidableEq

/-- Scheduling phase of one monitor iteration, per reactor: a frozen
reactor has its tick counter bumped directly; a live one gets a heartbeat
future (which increments the counter when the reactor runs it) enqueued. -/
def heartbeatPhase (r : ReactorRecord) : ReactorRecord :=
  if r.frozen then { r with tickCounter := (r.tickCounter + 1) % U64 }
  else { r with pending := r.pending + 1 }

/-- Effect of the reactor executing `d` of its pending heartbeat futures
during the interval: each executed future increments the tick counter. -/
def drainPhase (d : Nat) (r : ReactorRecord) : ReactorRecord :=
  let e := min d r.pending
  { r with tickCounter := (r.tickCounter + e) % U64, pending := r.pending - e }

/-- Check phase of one monitor iteration, per reactor, after the global
tick increment: a frozen reactor with delta 0 is marked healthy again; a
live reactor with delta at least the timeout is marked frozen. -/
def checkPhase (timeout tick : Nat) (r : ReactorRecord) : ReactorRecord :=
  if r.frozen then
    if sub64 tick r.tickCounter = 0 then { r with frozen := false } else r
  else
    if timeout ≤ sub64 tick r.tickCounter then { r with frozen := true }
    else r

/-- Per-reactor composition of one iteration of reactor_monitor_loop:
schedule (or bump), let the reactor drain `d` heartbeats during the
interval, then check against the incremented tick. The loop applies each
phase to all reactors before the next phase; since every phase touches only
its own reactor's record, the pointwise composition yields the same final
records. -/
def monitorRecords (timeout tick : Nat) :
    List ReactorRecord → List Nat → List ReactorRecord
  | [], _ => []
  | _, [] => []
  | r :: rs, d :: ds =>
    checkPhase timeout tick (drainPhase d (heartbeatPhase r)) ::
      monitorRecords timeout tick rs ds

/-- One iteration of reactor_monitor_loop: heartbeat scheduling, the
interval during which reactor `i` executes `drains[i]` pending heartbeats,
the global tick increment, and the freeze/recovery check. -/
def monitorIteration (timeout tick : Nat) (records : List ReactorRecord)
    (drains : List Nat) : Nat × List ReactorRecord :=
  let tick1 := (tick + 1) % U64
  (tick1, monitorRecords timeout tick1 records drains)

/-! Helper lemmas about child_select. -/

theorem child_select_readers (ch : NexusChannelInner) :
    (ch.child_select).2.readers = ch.readers := by
  unfold NexusChannelInner.child_select
  split <;> rfl

theorem rr_mod (p L : Nat) (h1 : p < L) :
    (if p < L - 1 then p + 1 else 0) = (p + 1) % L := by
  split
  · exact (Nat.mod_eq_of_lt (by omega)).symm
  · have hpl : p + 1 = L := by omega
    rw [hpl, Nat.mod_self]

theorem child_select_step (ch : NexusChannelInner)
    (h : ch.previous < ch.readers.length) :
    ch.child_select =
      (some ((ch.previous + 1) % ch.readers.length),
        { ch with previous := (ch.previous + 1) % ch.readers.length }) := by
  have hne : ch.readers.isEmpty = false := by
    cases hr : ch.readers with
    | nil => rw [hr] at h; simp at h
    | cons a l => rfl
  unfold NexusChannelInner.child_select
  rw [hne]
  simp only [Bool.false_eq_true, if_false, rr_mod ch.previous ch.readers.length h]

theorem child_select_some (ch : NexusChannelInner) (i : Nat)
    (h : (ch.child_select).1 = some i) : i < ch.readers.length := by
  unfold NexusChannelInner.child_select at h
  split at h
  · simp at h
  · next he =>
    have hne : ch.readers ≠ [] := by
      intro h0
      rw [h0] at he
      simp at he
    have hlen : 0 < ch.readers.length := List.length_pos.mpr hne
    simp only [Prod.fst] at h
    split at h <;> (injection h with h1; omega)

theorem childSelectRun_outputs (L : Nat) :
    ∀ (n : Nat) (ch : NexusChannelInner), ch.readers.length = L →
      ch.previous < L →
      (childSelectRun ch n).1 =
        (List.range n).map (fun k => some ((ch.previous + 1 + k) % L)) := by
  intro n
  induction n with
  | zero => intro ch _ _; simp [childSelectRun]
  | succ n ih =>
    intro ch hL hp
    have hL0 : 0 < L := by omega
    have hstep := child_select_step ch (by omega)
    have hrec := ih { ch with previous := (ch.previous + 1) % ch.readers.length }
      (by simpa using hL)
      (by simpa [hL] using Nat.mod_lt (ch.previous + 1) (by omega))
    simp only [childSelectRun, hstep, hrec]
    rw [List.range_succ_eq_map, List.map_cons, List.map_map]
    congr 1
    · simp [hL]
    · apply List.map_congr_left
      intro k _
      simp only [Function.comp]
      congr 1
      rw [hL]
      have hre : (ch.previous + 1) % L + 1 + k =
          (ch.previous + 1) % L + (1 + k) := by omega
      rw [hre, Nat.mod_add_mod]
      congr 1
      omega

theorem rr_nodup (L c : Nat) (_hL : 0 < L) :
    ((List.range L).map (fun k => (c + k) % L)).Nodup := by
  apply (List.nodup_range L).map_on
  intro k1 h1 k2 h2 h
  rw [List.mem_range] at h1 h2
  have hmc : k1 % L = k2 % L := Nat.ModEq.add_left_cancel' c h
  rw [Nat.mod_eq_of_lt h1, Nat.mod_eq_of_lt h2] at hmc
  exact hmc

theorem rr_mem (L c j : Nat) (hL : 0 < L) (hj : j < L) :
    j ∈ (List.range L).map (fun k => (c + k) % L) := by
  refine List.mem_map.mpr ⟨(j + L - c % L) % L,
    List.mem_range.mpr (Nat.mod_lt _ hL), ?_⟩
  rw [Nat.add_mod_mod]
  have hdm := Nat.div_add_mod c L
  have hcl : c % L < L := Nat.mod_lt _ hL
  have harr : c + (j + L - c % L) = j + L + L * (c / L) := by omega
  rw [harr, Nat.add_mul_mod_self_left, Nat.add_mod_right]
  exact Nat.mod_eq_of_lt hj

/-- Number of occurrences of a value in a list of optional indices. -/
def countOcc (a : Option Nat) : List (Option Nat) → Nat
  | [] => 0
  | b :: l => (if b = a then 1 else 0) + countOcc a l

theorem countOcc_eq_zero_of_not_mem (a : Option Nat) (l : List (Option Nat))
    (h : a ∉ l) : countOcc a l = 0 := by
  induction l with
  | nil => rfl
  | cons b l ih =>
    simp only [List.mem_cons, not_or] at h
    have hba : ¬ b = a := fun hba => h.1 hba.symm
    simp only [countOcc, if_neg hba, ih h.2]

theorem countOcc_eq_one (a : Option Nat) (l : List (Option Nat))
    (hnd : l.Nodup) (hm : a ∈ l) : countOcc a l = 1 := by
  induction l with
  | nil => simp at hm
  | cons b l ih =>
    rcases List.mem_cons.mp hm with hb | hl
    · have hnotin : a ∉ l := hb ▸ (List.nodup_cons.mp hnd).1
      simp only [countOcc, if_pos hb.symm,
        countOcc_eq_zero_of_not_mem a l hnotin]
    · have hba : b ≠ a := by
        intro hba
        exact (List.nodup_cons.mp hnd).1 (hba ▸ hl)
      simp only [countOcc, if_neg hba,
        ih (List.nodup_cons.mp hnd).2 hl]

/-- C2 counterexample: with three readers and cursor 4, child_select
returns some 0, not some ((4 + 1) mod 3) = some 2, so the claimed cursor
update formula fails on a channel state with an out-of-range cursor. -/
theorem child_select_mod_counterexample :
    ¬ ((badCursorChannel.child_select).1 =
        some ((badCursorChannel.previous + 1) % badCursorChannel.readers.length)) := by
  decide

/-- C2 (amended): child_select returns none exactly when the readers vector
is empty; provided the cursor satisfies the maintained invariant
previous < len(readers), it advances the cursor to (previous + 1) mod
len(readers) and returns it, over len(readers) consecutive calls every
reader index is returned exactly once, and with three readers and
previous = 0 the successive results are 1, 2, 0, 1, 2, 0. -/
theorem child_select_round_robin (ch : NexusChannelInner)
    (h : ch.previous < ch.readers.length) :
    (ch.child_select).1 = some ((ch.previous + 1) % ch.readers.length) ∧
    (ch.child_select).2 =
      { ch with previous := (ch.previous + 1) % ch.readers.length } ∧
    (∀ ch2 : NexusChannelInner, ((ch2.child_select).1 = none ↔ ch2.readers = [])) ∧
    (childSelectRun ch ch.readers.length).1 =
      (List.range ch.readers.length).map
        (fun k => some ((ch.previous + 1 + k) % ch.readers.length)) ∧
    (∀ j, j < ch.readers.length →
      countOcc (some j) (childSelectRun ch ch.readers.length).1 = 1) ∧
    (childSelectRun abcChannel 6).1 =
      [some 1, some 2, some 0, some 1, some 2, some 0] := by
  have hstep := child_select_step ch h
  refine ⟨by rw [hstep], by rw [hstep], ?_, ?_, ?_, by decide⟩
  · intro ch2
    unfold NexusChannelInner.child_select
    constructor
    · intro hn
      split at hn
      · next he => exact List.isEmpty_iff.mp he
      · simp at hn
    · intro he
      rw [if_pos (by simp [he])]
  · exact childSelectRun_outputs ch.readers.length ch.readers.length ch rfl h
  · intro j hj
    rw [childSelectRun_outputs ch.readers.length ch.readers.length ch rfl h]
    have hmaps :
        (List.range ch.readers.length).map
          (fun k => some ((ch.previous + 1 + k) % ch.readers.length)) =
        ((List.range ch.readers.length).map
          (fun k => (ch.previous + 1 + k) % ch.readers.length)).map some := by
      rw [List.map_map]; rfl
    rw [hmaps]
    have hL0 : 0 < ch.readers.length := lt_of_le_of_lt (Nat.zero_le j) hj
    apply countOcc_eq_one
    · exact (rr_nodup ch.readers.length (ch.previous + 1) hL0).map
        (Option.some_injective Nat)
    · exact List.mem_map_of_mem some
        (rr_mem ch.readers.length (ch.previous + 1) j hL0 hj)

/-- C2 witness: the amended theorem applied to the concrete three-reader
channel with cursor 0. -/
theorem child_select_round_robin_witness :
    (abcChannel.child_select).1 =
      some ((abcChannel.previous + 1) % abcChannel.readers.length) :=
  (child_select_round_robin abcChannel (by decide)).1

/-! Claim C3: fault_device. -/

/-- Per-child effect of fault_nexus_child: an Open child whose still
present device reports the given name is swapped to Faulted(IoError);
every other child (including those whose device reference was dropped) is
left untouched. -/
def faultIoMark (device_name : String) (c : Child) : Child :=
  if c.state = ChildState.Open ∧ c.hasDevice ∧ c.name = device_name then
    { c with state := ChildState.Faulted Reason.IoError }
  else c

theorem fault_nexus_child_found (nexus : List Child) (device_name : String) :
    ((fault_nexus_child nexus device_name).2 = true ↔
      ∃ c ∈ nexus, c.state = ChildState.Open ∧ c.hasDevice = true ∧
        c.name = device_name) := by
  induction nexus with
  | nil => simp [fault_nexus_child]
  | cons c cs ih =>
    unfold fault_nexus_child
    split
    · next hc =>
      simp only [true_iff]
      exact ⟨c, List.mem_cons_self c cs, hc.1, hc.2.1, hc.2.2⟩
    · next hc =>
      simp only [List.mem_cons]
      constructor
      · intro h
        obtain ⟨c2, hm, hp⟩ := ih.mp h
        exact ⟨c2, Or.inr hm, hp⟩
      · rintro ⟨c2, hm, hp⟩
        rcases hm with hm | hm
        · exact absurd ⟨hp.1, hp.2.1, hp.2.2⟩ (hm ▸ hc)
        · exact ih.mpr ⟨c2, hm, hp⟩

theorem fault_nexus_child_children (nexus : List Child)
    (device_name : String) (hnd : (nexus.map Child.name).Nodup) :
    (fault_nexus_child nexus device_name).1 =
      nexus.map (faultIoMark device_name) := by
  induction nexus with
  | nil => rfl
  | cons c cs ih =>
    rw [List.map_cons, List.nodup_cons] at hnd
    unfold fault_nexus_child
    split
    · next hc =>
      have hid : ∀ c2 ∈ cs, faultIoMark device_name c2 = c2 := by
        intro c2 hc2
        unfold faultIoMark
        rw [if_neg]
        rintro ⟨_, _, hn⟩
        apply hnd.1
        have hmm : c2.name ∈ cs.map Child.name :=
          List.mem_map_of_mem Child.name hc2
        rw [hn, ← hc.2.2] at hmm
        exact hmm
      have hcs : cs.map (faultIoMark device_name) = cs := by
        rw [List.map_congr_left hid]
        simp
      have hfc : faultIoMark device_name c =
          { c with state := ChildState.Faulted Reason.IoError } := by
        unfold faultIoMark; rw [if_pos hc]
      simp [List.map_cons, hcs, hfc]
    · next hc =>
      rw [List.map_cons]
      have hcid : faultIoMark device_name c = c := by
        unfold faultIoMark; rw [if_neg hc]
      rw [hcid]
      exact congrArg (c :: ·) (ih hnd.2)

/-- C3: fault_device leaves the channel untouched, compare-and-swaps the
state of every child whose present backing device reports the given name
from Open to Faulted(IoError) while silently skipping children whose
device reference was dropped, and returns true iff at least one such
transition succeeded; device names are unique within a nexus. -/
theorem fault_device_spec (ch : NexusChannelInner) (nexus : List Child)
    (device_name : String) (hnd : (nexus.map Child.name).Nodup) :
    (ch.fault_device nexus device_name).1 = ch ∧
    (ch.fault_device nexus device_name).2.1 =
      nexus.map (faultIoMark device_name) ∧
    ((ch.fault_device nexus device_name).2.2 = true ↔
      ∃ c ∈ nexus, c.state = ChildState.Open ∧ c.hasDevice = true ∧
        c.name = device_name) :=
  ⟨rfl, fault_nexus_child_children nexus device_name hnd,
    fault_nexus_child_found nexus device_name⟩

/-- Concrete one-child nexus for the C3 witness. -/
def nexusA : List Child :=
  [{ name := "a", state := ChildState.Open, canOpen := true,
     hasDevice := true }]

/-- C3 witness: the theorem applied to a one-child nexus. -/
theorem fault_device_spec_witness :
    (abcChannel.fault_device nexusA "a").2.1 =
      nexusA.map (faultIoMark "a") :=
  (fault_device_spec abcChannel nexusA "a" (by decide)).2.1

/-! Claim C4: remove_device. -/

theorem childSelectRun_no_name (device_name : String) :
    ∀ (n : Nat) (ch : NexusChannelInner),
      (∀ x ∈ ch.readers, x ≠ device_name) →
      ∀ i, some i ∈ (childSelectRun ch n).1 →
        i < ch.readers.length ∧ ch.readers[i]? ≠ some device_name := by
  intro n
  induction n with
  | zero => intro ch _ i hmem; simp [childSelectRun] at hmem
  | succ n ih =>
    intro ch hprop i hmem
    simp only [childSelectRun] at hmem
    rcases List.mem_cons.mp hmem with hhead | htail
    · have hi : i < ch.readers.length := child_select_some ch i hhead.symm
      refine ⟨hi, ?_⟩
      rw [List.getElem?_eq_getElem hi]
      intro hcontra
      injection hcontra with hval
      exact hprop _ (ch.readers.get_mem i hi) hval
    · have := ih (ch.child_select).2
        (by rw [child_select_readers]; exact hprop) i htail
      rw [child_select_readers] at this
      exact this

/-- C4: remove_device retains in both vectors exactly the handles whose
device name differs from the given name, resets the cursor to 0, returns
the result of fault_device on the nexus, and any number of subsequent
child_select calls never returns an index whose backing reader's device
name equals the given name. -/
theorem remove_device_spec (ch : NexusChannelInner) (nexus : List Child)
    (device_name : String) :
    (ch.remove_device nexus device_name).1.readers =
      ch.readers.filter (fun n => n ≠ device_name) ∧
    (ch.remove_device nexus device_name).1.writers =
      ch.writers.filter (fun n => n ≠ device_name) ∧
    (ch.remove_device nexus device_name).1.previous = 0 ∧
    (ch.remove_device nexus device_name).2.1 =
      (fault_nexus_child nexus device_name).1 ∧
    (ch.remove_device nexus device_name).2.2 =
      (fault_nexus_child nexus device_name).2 ∧
    (∀ n i, some i ∈
        (childSelectRun (ch.remove_device nexus device_name).1 n).1 →
      i < (ch.remove_device nexus device_name).1.readers.length ∧
        (ch.remove_device nexus device_name).1.readers[i]? ≠
          some device_name) := by
  refine ⟨rfl, rfl, rfl, rfl, rfl, ?_⟩
  intro n i hmem
  refine childSelectRun_no_name device_name n _ ?_ i hmem
  intro x hx
  have := List.mem_filter.mp hx
  exact of_decide_eq_true this.2

/-! Claim C5: the cursor invariant. -/

/-- Invariant of the round-robin cursor: the readers vector is empty or
the cursor is a valid reader index. -/
def prevOk (ch : NexusChannelInner) : Prop :=
  ch.readers = [] ∨ ch.previous < ch.readers.length

theorem prevOk_zero (ch : NexusChannelInner) (h : ch.previous = 0) :
    prevOk ch := by
  cases hr : ch.readers with
  | nil => exact Or.inl hr
  | cons a l => exact Or.inr (by rw [h, hr]; simp)

/-- C5: the cursor invariant holds after channel construction and is
preserved by every channel operation: new, child_select, remove_device,
fault_device, refresh, and clear. -/
theorem previous_cursor_invariant :
    (∀ nexus, prevOk (NexusChannel.new nexus).1) ∧
    (∀ ch : NexusChannelInner, prevOk (ch.child_select).2) ∧
    (∀ (ch : NexusChannelInner) nexus device_name,
      prevOk (ch.remove_device nexus device_name).1) ∧
    (∀ (ch : NexusChannelInner) nexus device_name, prevOk ch →
      prevOk (ch.fault_device nexus device_name).1) ∧
    (∀ (ch : NexusChannelInner) nexus, prevOk (ch.refresh nexus).1) ∧
    (∀ ch : NexusChannelInner, prevOk (NexusChannel.clear ch)) := by
  refine ⟨fun nexus => prevOk_zero _ rfl, ?_,
    fun ch nexus dn => prevOk_zero _ rfl, fun ch nexus dn h => h,
    fun ch nexus => prevOk_zero _ rfl, fun ch => Or.inl rfl⟩
  intro ch
  unfold NexusChannelInner.child_select
  split
  · next he => exact Or.inl (List.isEmpty_iff.mp he)
  · next he =>
    have hne : ch.readers ≠ [] := by
      intro h0
      rw [h0] at he
      simp at he
    have hlen : 0 < ch.readers.length := List.length_pos.mpr hne
    right
    simp only
    split <;> omega

/-- C5 witness: preservation through fault_device at a concrete channel. -/
theorem previous_cursor_invariant_witness :
    prevOk (abcChannel.fault_device nexusA "a").1 :=
  previous_cursor_invariant.2.2.2.1 abcChannel nexusA "a"
    (Or.inr (by decide))

/-! Normal forms of the refresh passes. -/

/-- Per-child effect of the open pass: an Open child whose handle
acquisition fails is faulted with CantOpen; every other child is kept. -/
def faultOpenFail (c : Child) : Child :=
  if c.state = ChildState.Open ∧ c.canOpen = false then
    { c with state := ChildState.Faulted Reason.CantOpen }
  else c

/-- Per-child effect of the write-only rebuild pass: a rebuilding child
whose handle acquisition fails is faulted with CantOpen. -/
def faultRebuildFail (c : Child) : Child :=
  if c.rebuilding = true ∧ c.canOpen = false then
    { c with state := ChildState.Faulted Reason.CantOpen }
  else c

/-- Is the child Open with a succeeding handle acquisition. -/
def openOk (c : Child) : Bool := c.state == ChildState.Open && c.canOpen

/-- Is the child rebuilding with a succeeding handle acquisition. -/
def rebuildOk (c : Child) : Bool := c.rebuilding && c.canOpen

/-- Is the child in state Open. -/
def isOpen (c : Child) : Bool := c.state == ChildState.Open

/-- Is the child in state Rebuilding. -/
def isRebuilding (c : Child) : Bool := c.state == ChildState.Rebuilding

theorem refreshOpen_children (cs : List Child) :
    (refreshOpen cs).1 = cs.map faultOpenFail := by
  induction cs with
  | nil => rfl
  | cons c cs ih =>
    by_cases hs : c.state = ChildState.Open
    · cases hco : c.canOpen
      · have hm : faultOpenFail c =
            { c with state := ChildState.Faulted Reason.CantOpen } := by
          simp [faultOpenFail, hs, hco]
        simp [refreshOpen, hs, hco, ih, hm]
      · have hm : faultOpenFail c = c := by simp [faultOpenFail, hs, hco]
        simp [refreshOpen, hs, hco, ih, hm]
    · have hm : faultOpenFail c = c := by simp [faultOpenFail, hs]
      simp [refreshOpen, hs, ih, hm]

theorem refreshOpen_writers (cs : List Child) :
    (refreshOpen cs).2.1 = (cs.filter openOk).map Child.name := by
  induction cs with
  | nil => rfl
  | cons c cs ih =>
    by_cases hs : c.state = ChildState.Open
    · cases hco : c.canOpen
      · have hok : openOk c = false := by simp [openOk, hs, hco]
        simp [refreshOpen, hs, hco, ih, List.filter_cons, hok]
      · have hok : openOk c = true := by simp [openOk, hs, hco]
        simp [refreshOpen, hs, hco, ih, List.filter_cons, hok]
    · have hok : openOk c = false := by simp [openOk, hs]
      simp [refreshOpen, hs, ih, List.filter_cons, hok]

theorem refreshOpen_readers (cs : List Child) :
    (refreshOpen cs).2.2 = (cs.filter openOk).map Child.name := by
  induction cs with
  | nil => rfl
  | cons c cs ih =>
    by_cases hs : c.state = ChildState.Open
    · cases hco : c.canOpen
      · have hok : openOk c = false := by simp [openOk, hs, hco]
        simp [refreshOpen, hs, hco, ih, List.filter_cons, hok]
      · have hok : openOk c = true := by simp [openOk, hs, hco]
        simp [refreshOpen, hs, hco, ih, List.filter_cons, hok]
    · have hok : openOk c = false := by simp [openOk, hs]
      simp [refreshOpen, hs, ih, List.filter_cons, hok]

theorem refreshRebuild_children (cs : List Child) :
    (refreshRebuild cs).1 = cs.map faultRebuildFail := by
  induction cs with
  | nil => rfl
  | cons c cs ih =>
    cases hrb : c.rebuilding
    · have hm : faultRebuildFail c = c := by simp [faultRebuildFail, hrb]
      simp [refreshRebuild, hrb, ih, hm]
    · cases hco : c.canOpen
      · have hm : faultRebuildFail c =
            { c with state := ChildState.Faulted Reason.CantOpen } := by
          simp [faultRebuildFail, hrb, hco]
        simp [refreshRebuild, hrb, hco, ih, hm]
      · have hm : faultRebuildFail c = c := by
          simp [faultRebuildFail, hrb, hco]
        simp [refreshRebuild, hrb, hco, ih, hm]

theorem refreshRebuild_writers (cs : List Child) :
    (refreshRebuild cs).2 = (cs.filter rebuildOk).map Child.name := by
  induction cs with
  | nil => rfl
  | cons c cs ih =>
    cases hrb : c.rebuilding
    · have hok : rebuildOk c = false := by simp [rebuildOk, hrb]
      simp [refreshRebuild, hrb, ih, List.filter_cons, hok]
    · cases hco : c.canOpen
      · have hok : rebuildOk c = false := by simp [rebuildOk, hrb, hco]
        simp [refreshRebuild, hrb, hco, ih, List.filter_cons, hok]
      · have hok : rebuildOk c = true := by simp [rebuildOk, hrb, hco]
        simp [refreshRebuild, hrb, hco, ih, List.filter_cons, hok]

theorem faultOpenFail_name (c : Child) : (faultOpenFail c).name = c.name := by
  unfold faultOpenFail; split <;> rfl

theorem faultRebuildFail_name (c : Child) :
    (faultRebuildFail c).name = c.name := by
  unfold faultRebuildFail; split <;> rfl

theorem isOpen_faultOpenFail (c : Child) :
    isOpen (faultOpenFail c) = openOk c := by
  by_cases hs : c.state = ChildState.Open
  · cases hco : c.canOpen <;>
      simp [isOpen, openOk, faultOpenFail, hs, hco]
  · simp [isOpen, openOk, faultOpenFail, hs]

theorem isOpen_faultRebuildFail (c : Child) :
    isOpen (faultRebuildFail c) = isOpen c := by
  cases hrb : c.rebuilding
  · simp [faultRebuildFail, hrb]
  · simp only [Child.rebuilding, decide_eq_true_eq] at hrb
    cases hco : c.canOpen <;>
      simp [isOpen, faultRebuildFail, Child.rebuilding, hrb, hco]

theorem isRebuilding_faultOpenFail (c : Child) :
    isRebuilding (faultOpenFail c) = isRebuilding c := by
  by_cases hs : c.state = ChildState.Open
  · cases hco : c.canOpen <;>
      simp [isRebuilding, faultOpenFail, hs, hco]
  · simp [isRebuilding, faultOpenFail, hs]

theorem isRebuilding_faultRebuildFail (c : Child) :
    isRebuilding (faultRebuildFail c) = rebuildOk c := by
  cases hrb : c.rebuilding
  · have hs : ¬ c.state = ChildState.Rebuilding := by
      simpa [Child.rebuilding] using hrb
    simp [isRebuilding, rebuildOk, faultRebuildFail, hrb, hs]
  · have hs : c.state = ChildState.Rebuilding := by
      simpa [Child.rebuilding] using hrb
    cases hco : c.canOpen <;>
      simp [isRebuilding, rebuildOk, faultRebuildFail, hrb, hs, hco]

theorem openOk_faultOpenFail (c : Child) :
    openOk (faultOpenFail c) = openOk c := by
  by_cases hs : c.state = ChildState.Open
  · cases hco : c.canOpen <;>
      simp [openOk, faultOpenFail, hs, hco]
  · simp [openOk, faultOpenFail, hs]

theorem openOk_faultRebuildFail (c : Child) :
    openOk (faultRebuildFail c) = openOk c := by
  cases hrb : c.rebuilding
  · simp [faultRebuildFail, hrb]
  · have hs : c.state = ChildState.Rebuilding := by
      simpa [Child.rebuilding] using hrb
    cases hco : c.canOpen <;>
      simp [openOk, faultRebuildFail, Child.rebuilding, hrb, hs, hco]

theorem rebuildOk_faultOpenFail (c : Child) :
    rebuildOk (faultOpenFail c) = rebuildOk c := by
  by_cases hs : c.state = ChildState.Open
  · cases hco : c.canOpen <;>
      simp [rebuildOk, faultOpenFail, Child.rebuilding, hs, hco]
  · simp [rebuildOk, faultOpenFail, hs]

theorem rebuildOk_faultRebuildFail (c : Child) :
    rebuildOk (faultRebuildFail c) = rebuildOk c := by
  cases hrb : c.rebuilding
  · simp [faultRebuildFail, hrb]
  · have hs : c.state = ChildState.Rebuilding := by
      simpa [Child.rebuilding] using hrb
    cases hco : c.canOpen <;>
      simp [rebuildOk, faultRebuildFail, Child.rebuilding, hrb, hs, hco]

/-- Transfer of a filtered name projection through a per-child map. -/
theorem filter_map_name (cs : List Child) (f : Child → Child)
    (p q : Child → Bool) (hname : ∀ c, (f c).name = c.name)
    (hp : ∀ c, p (f c) = q c) :
    ((cs.map f).filter p).map Child.name = (cs.filter q).map Child.name := by
  rw [List.filter_map f cs, List.map_map]
  have h1 : cs.filter (p ∘ f) = cs.filter q :=
    List.filter_congr (fun c _ => hp c)
  rw [h1]
  apply List.map_congr_left
  intro c _
  exact hname c

theorem refresh_readers (ch : NexusChannelInner) (nexus : List Child) :
    (ch.refresh nexus).1.readers = (nexus.filter openOk).map Child.name := by
  unfold NexusChannelInner.refresh
  cases hie : ch.readers.isEmpty <;> simp [hie, refreshOpen_readers]

theorem refresh_writers (ch : NexusChannelInner) (nexus : List Child) :
    (ch.refresh nexus).1.writers =
      (nexus.filter openOk).map Child.name ++
        (if ch.readers.isEmpty then []
         else (nexus.filter rebuildOk).map Child.name) := by
  unfold NexusChannelInner.refresh
  cases hie : ch.readers.isEmpty
  · simp only [hie, Bool.false_eq_true, if_false]
    rw [refreshOpen_writers]
    congr 1
    rw [refreshRebuild_writers, refreshOpen_children]
    exact filter_map_name nexus faultOpenFail rebuildOk rebuildOk
      faultOpenFail_name rebuildOk_faultOpenFail
  · simp [hie, refreshOpen_writers]

theorem refresh_children (ch : NexusChannelInner) (nexus : List Child) :
    (ch.refresh nexus).2 =
      if ch.readers.isEmpty then nexus.map faultOpenFail
      else (nexus.map faultOpenFail).map faultRebuildFail := by
  unfold NexusChannelInner.refresh
  cases hie : ch.readers.isEmpty <;>
    simp [hie, refreshOpen_children, refreshRebuild_children]

theorem openOk_spec (c : Child) (h : openOk c = true) :
    c.state = ChildState.Open ∧ c.canOpen = true := by
  simpa [openOk] using h

theorem rebuildOk_spec (c : Child) (h : rebuildOk c = true) :
    c.state = ChildState.Rebuilding ∧ c.canOpen = true := by
  simpa [rebuildOk, Child.rebuilding] using h

theorem fOF_id_of_canOpen (c : Child) (h : c.canOpen = true) :
    faultOpenFail c = c := by
  simp [faultOpenFail, h]

theorem fRF_id_of_canOpen (c : Child) (h : c.canOpen = true) :
    faultRebuildFail c = c := by
  simp [faultRebuildFail, h]

theorem fOF_id_of_not_open (c : Child) (h : ¬ c.state = ChildState.Open) :
    faultOpenFail c = c := by
  simp [faultOpenFail, h]

theorem fRF_id_of_not_rebuilding (c : Child)
    (h : ¬ c.state = ChildState.Rebuilding) : faultRebuildFail c = c := by
  simp [faultRebuildFail, Child.rebuilding, h]

theorem fOF_fault (c : Child) (hs : c.state = ChildState.Open)
    (hc : c.canOpen = false) :
    faultOpenFail c = { c with state := ChildState.Faulted Reason.CantOpen } := by
  simp [faultOpenFail, hs, hc]

theorem fRF_fault (c : Child) (hs : c.state = ChildState.Rebuilding)
    (hc : c.canOpen = false) :
    faultRebuildFail c =
      { c with state := ChildState.Faulted Reason.CantOpen } := by
  simp [faultRebuildFail, Child.rebuilding, hs, hc]

/-- Injectivity of names inside a nexus with unique device names. -/
theorem name_inj (cs : List Child) (hnd : (cs.map Child.name).Nodup) :
    ∀ c1 ∈ cs, ∀ c2 ∈ cs, c1.name = c2.name → c1 = c2 :=
  List.inj_on_of_nodup_map hnd

/-- A child that cannot open is never listed among the filtered names. -/
theorem not_mem_filter_names (nexus : List Child)
    (hnd : (nexus.map Child.name).Nodup) (p : Child → Bool) (c : Child)
    (hc : c ∈ nexus) (hcnop : ∀ c2, p c2 = true → c2.canOpen = true)
    (hco : c.canOpen = false) :
    c.name ∉ (nexus.filter p).map Child.name := by
  intro hmem
  obtain ⟨c2, hc2f, hc2n⟩ := List.mem_map.mp hmem
  have hc2 : c2 ∈ nexus := (List.mem_filter.mp hc2f).1
  have hp2 : p c2 = true := (List.mem_filter.mp hc2f).2
  have he : c2 = c := name_inj nexus hnd c2 hc2 c hc hc2n
  rw [he] at hp2
  rw [hcnop c hp2] at hco
  simp at hco

/-- A child that is not Open is never listed among the open names. -/
theorem not_mem_open_names (nexus : List Child)
    (hnd : (nexus.map Child.name).Nodup) (c0 : Child) (hc0 : c0 ∈ nexus)
    (hs : ¬ c0.state = ChildState.Open) :
    c0.name ∉ (nexus.filter openOk).map Child.name := by
  intro hmem
  obtain ⟨c2, hc2f, hn⟩ := List.mem_map.mp hmem
  have hc2 := (List.mem_filter.mp hc2f).1
  have hok := (List.mem_filter.mp hc2f).2
  have he : c2 = c0 := name_inj nexus hnd c2 hc2 c0 hc0 hn
  exact hs (he ▸ (openOk_spec c2 hok).1)

/-- Names of the refreshed open children, before and after the passes. -/
theorem refresh_open_names (ch : NexusChannelInner) (nexus : List Child) :
    ((ch.refresh nexus).2.filter isOpen).map Child.name =
      (nexus.filter openOk).map Child.name := by
  rw [refresh_children]
  cases hie : ch.readers.isEmpty
  · simp only [Bool.false_eq_true, if_false]
    rw [filter_map_name (nexus.map faultOpenFail) faultRebuildFail isOpen
      isOpen faultRebuildFail_name isOpen_faultRebuildFail]
    exact filter_map_name nexus faultOpenFail isOpen openOk
      faultOpenFail_name isOpen_faultOpenFail
  · simp only [if_true]
    exact filter_map_name nexus faultOpenFail isOpen openOk
      faultOpenFail_name isOpen_faultOpenFail

/-- Names of the refreshed rebuilding children when the rebuild pass ran. -/
theorem refresh_rebuild_names (ch : NexusChannelInner) (nexus : List Child)
    (hie : ch.readers.isEmpty = false) :
    ((ch.refresh nexus).2.filter isRebuilding).map Child.name =
      (nexus.filter rebuildOk).map Child.name := by
  rw [refresh_children, hie]
  simp only [Bool.false_eq_true, if_false]
  rw [filter_map_name (nexus.map faultOpenFail) faultRebuildFail
    isRebuilding rebuildOk faultRebuildFail_name isRebuilding_faultRebuildFail]
  exact filter_map_name nexus faultOpenFail rebuildOk rebuildOk
    faultOpenFail_name rebuildOk_faultOpenFail

/-- C1: after refresh, the readers vector holds exactly one handle per Open
child in children order; the writers vector holds these plus, iff the
readers vector held before the call was non-empty, one writer-only handle
per Rebuilding child; a child whose acquisition fails is faulted with
CantOpen and appears in neither vector; no handle references a child whose
state is outside Open and Rebuilding, and no Rebuilding child has a
reader. Device names are unique within a nexus. -/
theorem refresh_vectors_spec (ch : NexusChannelInner) (nexus : List Child)
    (hnd : (nexus.map Child.name).Nodup) :
    (ch.refresh nexus).1.readers =
      ((ch.refresh nexus).2.filter isOpen).map Child.name ∧
    (ch.refresh nexus).1.writers =
      ((ch.refresh nexus).2.filter isOpen).map Child.name ++
        (if ch.readers.isEmpty then []
         else ((ch.refresh nexus).2.filter isRebuilding).map Child.name) ∧
    (∀ c ∈ nexus, c.canOpen = false →
      (c.state = ChildState.Open ∨
        (ch.readers ≠ [] ∧ c.state = ChildState.Rebuilding)) →
      ((∃ c2 ∈ (ch.refresh nexus).2, c2.name = c.name ∧
          c2.state = ChildState.Faulted Reason.CantOpen) ∧
        c.name ∉ (ch.refresh nexus).1.readers ∧
        c.name ∉ (ch.refresh nexus).1.writers)) ∧
    (∀ x ∈ (ch.refresh nexus).1.readers, ∃ c2 ∈ (ch.refresh nexus).2,
      c2.name = x ∧ c2.state = ChildState.Open) ∧
    (∀ x ∈ (ch.refresh nexus).1.writers, ∃ c2 ∈ (ch.refresh nexus).2,
      c2.name = x ∧ (c2.state = ChildState.Open ∨
        c2.state = ChildState.Rebuilding)) ∧
    (∀ c2 ∈ (ch.refresh nexus).2, c2.state = ChildState.Rebuilding →
      c2.name ∉ (ch.refresh nexus).1.readers) := by
  have hrd := refresh_readers ch nexus
  have hwr := refresh_writers ch nexus
  have hcn := refresh_children ch nexus
  have hON := refresh_open_names ch nexus
  refine ⟨by rw [hrd, hON], ?_, ?_, ?_, ?_, ?_⟩
  · rw [hwr, hON]
    congr 1
    cases hie : ch.readers.isEmpty
    · rw [refresh_rebuild_names ch nexus hie]
    · rfl
  · intro c hc hco hstate
    refine ⟨?_, ?_, ?_⟩
    · rcases hstate with hsOpen | ⟨hne, hsReb⟩
      · have hfc : faultOpenFail c =
            { c with state := ChildState.Faulted Reason.CantOpen } :=
          fOF_fault c hsOpen hco
        rw [hcn]
        cases hie : ch.readers.isEmpty
        · simp only [Bool.false_eq_true, if_false]
          refine ⟨faultRebuildFail (faultOpenFail c),
            List.mem_map_of_mem faultRebuildFail
              (List.mem_map_of_mem faultOpenFail hc), ?_⟩
          have hid : faultRebuildFail (faultOpenFail c) = faultOpenFail c :=
            fRF_id_of_not_rebuilding _ (by rw [hfc]; simp)
          rw [hid, hfc]
          exact ⟨rfl, rfl⟩
        · simp only [if_true]
          exact ⟨faultOpenFail c, List.mem_map_of_mem faultOpenFail hc,
            by rw [hfc]; exact ⟨rfl, rfl⟩⟩
      · have hie : ch.readers.isEmpty = false := by
          cases hr : ch.readers with
          | nil => exact absurd hr hne
          | cons a l => rfl
        rw [hcn, hie]
        simp only [Bool.false_eq_true, if_false]
        have hid : faultOpenFail c = c :=
          fOF_id_of_not_open c (by rw [hsReb]; simp)
        have hfc : faultRebuildFail c =
            { c with state := ChildState.Faulted Reason.CantOpen } :=
          fRF_fault c hsReb hco
        refine ⟨faultRebuildFail (faultOpenFail c),
          List.mem_map_of_mem faultRebuildFail
            (List.mem_map_of_mem faultOpenFail hc), ?_⟩
        rw [hid, hfc]
        exact ⟨rfl, rfl⟩
    · rw [hrd]
      exact not_mem_filter_names nexus hnd openOk c hc
        (fun c2 h => (openOk_spec c2 h).2) hco
    · rw [hwr]
      intro hmem
      rcases List.mem_append.mp hmem with hml | hmr
      · exact not_mem_filter_names nexus hnd openOk c hc
          (fun c2 h => (openOk_spec c2 h).2) hco hml
      · cases hie : ch.readers.isEmpty
        · rw [hie] at hmr
          simp only [Bool.false_eq_true, if_false] at hmr
          exact not_mem_filter_names nexus hnd rebuildOk c hc
            (fun c2 h => (rebuildOk_spec c2 h).2) hco hmr
        · rw [hie] at hmr
          simp at hmr
  · intro x hx
    rw [hrd] at hx
    obtain ⟨c2, hc2f, hc2n⟩ := List.mem_map.mp hx
    have hc2 := (List.mem_filter.mp hc2f).1
    obtain ⟨hs2, hcan2⟩ := openOk_spec c2 (List.mem_filter.mp hc2f).2
    have hid1 : faultOpenFail c2 = c2 := fOF_id_of_canOpen c2 hcan2
    have hid2 : faultRebuildFail c2 = c2 :=
      fRF_id_of_not_rebuilding c2 (by rw [hs2]; simp)
    refine ⟨c2, ?_, hc2n, hs2⟩
    rw [hcn]
    cases hie : ch.readers.isEmpty
    · simp only [Bool.false_eq_true, if_false]
      exact List.mem_map.mpr ⟨c2,
        List.mem_map.mpr ⟨c2, hc2, hid1⟩, hid2⟩
    · simp only [if_true]
      exact List.mem_map.mpr ⟨c2, hc2, hid1⟩
  · intro x hx
    rw [hwr] at hx
    rcases List.mem_append.mp hx with hml | hmr
    · obtain ⟨c2, hc2f, hc2n⟩ := List.mem_map.mp hml
      have hc2 := (List.mem_filter.mp hc2f).1
      obtain ⟨hs2, hcan2⟩ := openOk_spec c2 (List.mem_filter.mp hc2f).2
      have hid1 : faultOpenFail c2 = c2 := fOF_id_of_canOpen c2 hcan2
      have hid2 : faultRebuildFail c2 = c2 :=
        fRF_id_of_not_rebuilding c2 (by rw [hs2]; simp)
      refine ⟨c2, ?_, hc2n, Or.inl hs2⟩
      rw [hcn]
      cases hie : ch.readers.isEmpty
      · simp only [Bool.false_eq_true, if_false]
        exact List.mem_map.mpr ⟨c2,
          List.mem_map.mpr ⟨c2, hc2, hid1⟩, hid2⟩
      · simp only [if_true]
        exact List.mem_map.mpr ⟨c2, hc2, hid1⟩
    · cases hie : ch.readers.isEmpty
      · rw [hie] at hmr
        simp only [Bool.false_eq_true, if_false] at hmr
        obtain ⟨c2, hc2f, hc2n⟩ := List.mem_map.mp hmr
        have hc2 := (List.mem_filter.mp hc2f).1
        obtain ⟨hs2, hcan2⟩ := rebuildOk_spec c2 (List.mem_filter.mp hc2f).2
        have hid1 : faultOpenFail c2 = c2 :=
          fOF_id_of_not_open c2 (by rw [hs2]; simp)
        have hid2 : faultRebuildFail c2 = c2 := fRF_id_of_canOpen c2 hcan2
        refine ⟨c2, ?_, hc2n, Or.inr hs2⟩
        rw [hcn, hie]
        simp only [Bool.false_eq_true, if_false]
        exact List.mem_map.mpr ⟨c2,
          List.mem_map.mpr ⟨c2, hc2, hid1⟩, hid2⟩
      · rw [hie] at hmr
        simp at hmr
  · intro c2 hc2 hs2
    rw [hrd]
    rw [hcn] at hc2
    cases hie : ch.readers.isEmpty
    · rw [hie] at hc2
      simp only [Bool.false_eq_true, if_false] at hc2
      obtain ⟨c1, hc1, heq1⟩ := List.mem_map.mp hc2
      obtain ⟨c0, hc0, heq0⟩ := List.mem_map.mp hc1
      have hrb2 : isRebuilding c2 = true := by simp [isRebuilding, hs2]
      rw [← heq1, isRebuilding_faultRebuildFail] at hrb2
      rw [← heq0, rebuildOk_faultOpenFail] at hrb2
      have hs0 := (rebuildOk_spec c0 hrb2).1
      have hn20 : c2.name = c0.name := by
        rw [← heq1, faultRebuildFail_name, ← heq0, faultOpenFail_name]
      rw [hn20]
      exact not_mem_open_names nexus hnd c0 hc0 (by rw [hs0]; simp)
    · rw [hie] at hc2
      simp only [if_true] at hc2
      obtain ⟨c0, hc0, heq0⟩ := List.mem_map.mp hc2
      have hrb2 : isRebuilding c2 = true := by simp [isRebuilding, hs2]
      rw [← heq0, isRebuilding_faultOpenFail] at hrb2
      have hs0 : c0.state = ChildState.Rebuilding := by
        simpa [isRebuilding] using hrb2
      have hn20 : c2.name = c0.name := by
        rw [← heq0, faultOpenFail_name]
      rw [hn20]
      exact not_mem_open_names nexus hnd c0 hc0 (by rw [hs0]; simp)

/-- Concrete mixed nexus for the refresh witnesses: an Open child, a
Rebuilding child, and an Open child whose acquisition fails. -/
def mixNexus : List Child :=
  [{ name := "a", state := ChildState.Open, canOpen := true,
     hasDevice := true },
   { name := "b", state := ChildState.Rebuilding, canOpen := true,
     hasDevice := true },
   { name := "c", state := ChildState.Open, canOpen := false,
     hasDevice := true }]

/-- C1 witness: the theorem applied to a three-reader channel and the
mixed nexus. -/
theorem refresh_vectors_spec_witness :
    (abcChannel.refresh mixNexus).1.readers =
      ((abcChannel.refresh mixNexus).2.filter isOpen).map Child.name :=
  (refresh_vectors_spec abcChannel mixNexus (by decide)).1

/-! Claim C6: refresh called twice. -/

/-- Concrete channel with no handles and cursor 0. -/
def emptyChannel : NexusChannelInner :=
  { writers := [], readers := [], previous := 0, fail_fast := 0 }

/-- Concrete nexus with an Open child and a Rebuilding child. -/
def rebuildNexus : List Child :=
  [{ name := "a", state := ChildState.Open, canOpen := true,
     hasDevice := true },
   { name := "b", state := ChildState.Rebuilding, canOpen := true,
     hasDevice := true }]

/-- C6 counterexample: starting from a channel with an empty readers
vector over an Open child and a Rebuilding child, the first refresh skips
the write-only rebuild pass but the second performs it, so the two writers
vectors differ in length (1 against 2). -/
theorem refresh_idempotent_counterexample :
    ¬ (((emptyChannel.refresh rebuildNexus).1.refresh
          (emptyChannel.refresh rebuildNexus).2).1.writers.length =
        (emptyChannel.refresh rebuildNexus).1.writers.length ∧
      ((emptyChannel.refresh rebuildNexus).1.refresh
          (emptyChannel.refresh rebuildNexus).2).1.writers =
        (emptyChannel.refresh rebuildNexus).1.writers) := by
  decide

/-- C6 (amended): refresh called twice in succession with no external
state change produces identical readers and writers vectors (hence
identical lengths and device-name ordering), provided the readers vector
is empty before the first call exactly when it is empty after it; without
that proviso the write-only rebuild pass of the two calls can differ. -/
theorem refresh_idempotent (ch : NexusChannelInner) (nexus : List Child)
    (h : ch.readers.isEmpty = (ch.refresh nexus).1.readers.isEmpty) :
    ((ch.refresh nexus).1.refresh (ch.refresh nexus).2).1.readers =
      (ch.refresh nexus).1.readers ∧
    ((ch.refresh nexus).1.refresh (ch.refresh nexus).2).1.writers =
      (ch.refresh nexus).1.writers := by
  have hrd1 := refresh_readers ch nexus
  have hwr1 := refresh_writers ch nexus
  have hcn1 := refresh_children ch nexus
  have hrd2 := refresh_readers (ch.refresh nexus).1 (ch.refresh nexus).2
  have hwr2 := refresh_writers (ch.refresh nexus).1 (ch.refresh nexus).2
  have hopen2 :
      ((ch.refresh nexus).2.filter openOk).map Child.name =
        (nexus.filter openOk).map Child.name := by
    rw [hcn1]
    cases hie : ch.readers.isEmpty
    · simp only [Bool.false_eq_true, if_false]
      rw [filter_map_name (nexus.map faultOpenFail) faultRebuildFail openOk
        openOk faultRebuildFail_name openOk_faultRebuildFail]
      exact filter_map_name nexus faultOpenFail openOk openOk
        faultOpenFail_name openOk_faultOpenFail
    · simp only [if_true]
      exact filter_map_name nexus faultOpenFail openOk openOk
        faultOpenFail_name openOk_faultOpenFail
  have hreb2 :
      ((ch.refresh nexus).2.filter rebuildOk).map Child.name =
        (nexus.filter rebuildOk).map Child.name := by
    rw [hcn1]
    cases hie : ch.readers.isEmpty
    · simp only [Bool.false_eq_true, if_false]
      rw [filter_map_name (nexus.map faultOpenFail) faultRebuildFail
        rebuildOk rebuildOk faultRebuildFail_name rebuildOk_faultRebuildFail]
      exact filter_map_name nexus faultOpenFail rebuildOk rebuildOk
        faultOpenFail_name rebuildOk_faultOpenFail
    · simp only [if_true]
      exact filter_map_name nexus faultOpenFail rebuildOk rebuildOk
        faultOpenFail_name rebuildOk_faultOpenFail
  constructor
  · rw [hrd1, hrd2, hopen2]
  · rw [hwr1, hwr2, hopen2, hreb2, ← h]

/-- C6 witness: the amended theorem applied to a channel whose readers
vector is non-empty both before and after the first refresh. -/
theorem refresh_idempotent_witness :
    ((abcChannel.refresh nexusA).1.refresh (abcChannel.refresh nexusA).2).1.readers =
      (abcChannel.refresh nexusA).1.readers :=
  (refresh_idempotent abcChannel nexusA (by decide)).1

/-! Claim C10: alignment of writers and readers. -/

/-- C10: after NexusChannel::new the two vectors coincide; after refresh
the writers vector extends the readers vector position for position, and
every surplus writer at an index at or past the readers length belongs to
a Rebuilding child. -/
theorem writers_readers_aligned :
    (∀ nexus, (NexusChannel.new nexus).1.writers =
      (NexusChannel.new nexus).1.readers) ∧
    (∀ (ch : NexusChannelInner) (nexus : List Child),
      (ch.refresh nexus).1.readers.length ≤
        (ch.refresh nexus).1.writers.length ∧
      (ch.refresh nexus).1.writers.take (ch.refresh nexus).1.readers.length =
        (ch.refresh nexus).1.readers ∧
      (∀ x ∈ (ch.refresh nexus).1.writers.drop
          (ch.refresh nexus).1.readers.length,
        ∃ c2 ∈ (ch.refresh nexus).2, c2.state = ChildState.Rebuilding ∧
          c2.name = x)) := by
  constructor
  · intro nexus
    show (refreshOpen nexus).2.1 = (refreshOpen nexus).2.2
    rw [refreshOpen_writers, refreshOpen_readers]
  · intro ch nexus
    have hrd := refresh_readers ch nexus
    have hwr := refresh_writers ch nexus
    have hcn := refresh_children ch nexus
    refine ⟨?_, ?_, ?_⟩
    · rw [hrd, hwr]
      simp
    · rw [hrd, hwr]
      exact List.take_left _ _
    · intro x hx
      rw [hrd, hwr, List.drop_left] at hx
      cases hie : ch.readers.isEmpty
      · rw [hie] at hx
        simp only [Bool.false_eq_true, if_false] at hx
        obtain ⟨c2, hc2f, hc2n⟩ := List.mem_map.mp hx
        have hc2 := (List.mem_filter.mp hc2f).1
        obtain ⟨hs2, hcan2⟩ := rebuildOk_spec c2 (List.mem_filter.mp hc2f).2
        have hid1 : faultOpenFail c2 = c2 :=
          fOF_id_of_not_open c2 (by rw [hs2]; simp)
        have hid2 : faultRebuildFail c2 = c2 := fRF_id_of_canOpen c2 hcan2
        refine ⟨c2, ?_, hs2, hc2n⟩
        rw [hcn, hie]
        simp only [Bool.false_eq_true, if_false]
        exact List.mem_map.mpr ⟨c2, List.mem_map.mpr ⟨c2, hc2, hid1⟩, hid2⟩
      · rw [hie] at hx
        simp at hx

/-! Claim C7: reactor state transitions. -/

/-- C7 counterexample: the exposed running() setter moves a Shutdown
reactor back to Running, so Shutdown is not terminal. -/
theorem reactor_shutdown_not_terminal :
    Reactor.running ReactorState.Shutdown = ReactorState.Running ∧
    ReactorState.Running ≠ ReactorState.Shutdown := by
  decide

/-- C7 (amended): the reactor Future's poll transitions only along
Init to Running or Delayed and leaves Running, Delayed and Shutdown
unchanged, so Shutdown is terminal under polling alone; each exposed
setter (running, developer_delayed, shutdown) unconditionally installs its
fixed target state from any state, including from Shutdown. -/
theorem reactor_state_transitions :
    (∀ d : Bool,
      Reactor.futurePoll d ReactorState.Shutdown = ReactorState.Shutdown) ∧
    (∀ d : Bool,
      Reactor.futurePoll d ReactorState.Running = ReactorState.Running) ∧
    (∀ d : Bool,
      Reactor.futurePoll d ReactorState.Delayed = ReactorState.Delayed) ∧
    (∀ d : Bool, Reactor.futurePoll d ReactorState.Init =
      (if d then ReactorState.Delayed else ReactorState.Running)) ∧
    (∀ s, Reactor.running s = ReactorState.Running) ∧
    (∀ s, Reactor.developer_delayed s = ReactorState.Delayed) ∧
    (∀ s, Reactor.shutdown s = ReactorState.Shutdown) := by
  refine ⟨fun d => rfl, fun d => rfl, fun d => rfl, ?_, fun s => rfl,
    fun s => rfl, fun s => rfl⟩
  intro d
  cases d <;> rfl

/-! Claim C8: launch_remote. -/

/-- C8: called from the primary core (the documented calling context),
launch_remote is an Ok no-op for the primary core itself, fails with
ReactorConfigureFailed(ENOSYS) for a core that is not enabled, and
surfaces a nonzero pin result as ReactorConfigureFailed carrying that
errno. -/
theorem launch_remote_spec (cores : CoresModel) (pin : PinResult)
    (core : Nat) (hc : cores.current = cores.first) :
    (core = cores.first →
      Reactors.launch_remote cores pin core = Except.ok ()) ∧
    (core ≠ cores.first → ¬ core ∈ cores.enabled →
      Reactors.launch_remote cores pin core =
        Except.error (CoreError.ReactorConfigureFailed ENOSYS)) ∧
    (core ≠ cores.first → core ∈ cores.enabled → pin core ≠ 0 →
      Reactors.launch_remote cores pin core =
        Except.error (CoreError.ReactorConfigureFailed (pin core))) := by
  unfold Reactors.launch_remote
  refine ⟨?_, ?_, ?_⟩
  · intro h
    rw [if_pos (h.trans hc.symm)]
  · intro hne hmem
    rw [if_neg (fun he => hne (he.trans hc))]
    have hany : cores.enabled.any (fun c => c = core) = false := by
      cases hb : cores.enabled.any (fun c => c = core)
      · rfl
      · exfalso
        obtain ⟨x, hx, hxe⟩ := List.any_eq_true.mp hb
        exact hmem (of_decide_eq_true hxe ▸ hx)
    rw [hany]
    simp only [Bool.false_eq_true, if_false]
  · intro hne hmem hpin
    rw [if_neg (fun he => hne (he.trans hc))]
    have hany : cores.enabled.any (fun c => c = core) = true :=
      List.any_eq_true.mpr ⟨core, hmem, by simp⟩
    rw [hany]
    simp only [if_true]
    rw [if_neg hpin]

/-- Concrete core layout for the C8 witness: primary core 0, enabled
cores 0 and 1, calling thread on core 0. -/
def demoCores : CoresModel := { first := 0, current := 0, enabled := [0, 1] }

/-- Concrete failing pin result for the C8 witness. -/
def pinFail : PinResult := fun _ => 19

/-- C8 witness: launching on enabled core 1 with a failing pin surfaces
the pin errno. -/
theorem launch_remote_spec_witness :
    Reactors.launch_remote demoCores pinFail 1 =
      Except.error (CoreError.ReactorConfigureFailed (pinFail 1)) :=
  (launch_remote_spec demoCores pinFail 1 rfl).2.2 (by decide) (by decide)
    (by decide)

/-! Claim C9: the health monitor iteration. -/

theorem monitorRecords_get (timeout tick : Nat) :
    ∀ (rs : List ReactorRecord) (ds : List Nat) (i : Nat)
      (r : ReactorRecord) (d : Nat),
      rs[i]? = some r → ds[i]? = some d →
      (monitorRecords timeout tick rs ds)[i]? =
        some (checkPhase timeout tick (drainPhase d (heartbeatPhase r))) := by
  intro rs
  induction rs with
  | nil => intro ds i r d hr _; simp at hr
  | cons r0 rs ih =>
    intro ds i r d hr hd
    cases ds with
    | nil => simp at hd
    | cons d0 ds =>
      cases i with
      | zero =>
        simp only [List.getElem?_cons_zero, Option.some.injEq] at hr hd
        subst hr
        subst hd
        simp [monitorRecords]
      | succ n =>
        simp only [List.getElem?_cons_succ] at hr hd
        simp only [monitorRecords, List.getElem?_cons_succ]
        exact ih ds n r d hr hd

/-- C9: in each monitor iteration a live reactor gets a heartbeat future
enqueued while a frozen one has its tick counter bumped directly; after
the interval and the tick increment, reactor i's record is the check phase
applied to its drained record, whose frozen flag is true exactly when the
reactor was frozen with a nonzero remaining delta, or live with delta at
least the timeout; the default timeout is 3. -/
theorem monitor_loop_spec (timeout tick : Nat)
    (records : List ReactorRecord) (drains : List Nat) (i : Nat)
    (r : ReactorRecord) (d : Nat) (hr : records[i]? = some r)
    (hd : drains[i]? = some d) :
    monitorTimeout none = 3 ∧
    (monitorIteration timeout tick records drains).1 = (tick + 1) % U64 ∧
    (r.frozen = true → heartbeatPhase r =
      { r with tickCounter := (r.tickCounter + 1) % U64 }) ∧
    (r.frozen = false → heartbeatPhase r =
      { r with pending := r.pending + 1 }) ∧
    ((monitorIteration timeout tick records drains).2)[i]? =
      some (checkPhase timeout ((tick + 1) % U64)
        (drainPhase d (heartbeatPhase r))) ∧
    ((checkPhase timeout ((tick + 1) % U64)
        (drainPhase d (heartbeatPhase r))).frozen = true ↔
      ((r.frozen = true ∧
          sub64 ((tick + 1) % U64)
            ((drainPhase d (heartbeatPhase r)).tickCounter) ≠ 0) ∨
        (r.frozen = false ∧
          timeout ≤ sub64 ((tick + 1) % U64)
            ((drainPhase d (heartbeatPhase r)).tickCounter)))) := by
  have hfr2 : (drainPhase d (heartbeatPhase r)).frozen = r.frozen := by
    cases hfz : r.frozen <;> simp [drainPhase, heartbeatPhase, hfz]
  refine ⟨rfl, rfl, fun h => by simp [heartbeatPhase, h],
    fun h => by simp [heartbeatPhase, h],
    monitorRecords_get timeout ((tick + 1) % U64) records drains i r d hr hd,
    ?_⟩
  unfold checkPhase
  rw [hfr2]
  cases hf : r.frozen
  · by_cases hto : timeout ≤ sub64 ((tick + 1) % U64)
        ((drainPhase d (heartbeatPhase r)).tickCounter)
    · simp [hto, hfr2, hf]
    · simp [hto, hfr2, hf]
  · by_cases hz : sub64 ((tick + 1) % U64)
        ((drainPhase d (heartbeatPhase r)).tickCounter) = 0
    · simp [hz, hfr2, hf]
    · simp [hz, hfr2, hf]

/-- Concrete live one-reactor record for the C9 witness. -/
def liveRecord : ReactorRecord :=
  { frozen := false, tickCounter := 0, pending := 0 }

/-- C9 witness: the theorem applied to a single live reactor. -/
theorem monitor_loop_spec_witness : monitorTimeout none = 3 :=
  (monitor_loop_spec 3 0 [liveRecord] [1] 0 liveRecord 1 rfl rfl).1

/-- C4 witness: the theorem applied to a concrete channel and nexus. -/
theorem remove_device_spec_witness :
    (abcChannel.remove_device nexusA "a").1.previous = 0 :=
  (remove_device_spec abcChannel nexusA "a").2.2.1

/-- C10 witness: the theorem applied to the mixed nexus. -/
theorem writers_readers_aligned_witness :
    (NexusChannel.new mixNexus).1.writers =
      (NexusChannel.new mixNexus).1.readers :=
  writers_readers_aligned.1 mixNexus

/-- C7 witness: the amended theorem applied to the Init state. -/
theorem reactor_state_transitions_witness :
    Reactor.running ReactorState.Init = ReactorState.Running :=
  reactor_state_transitions.2.2.2.2.1 ReactorState.Init

end Mayastor
